import Mathlib

/-!
Verification development for the shoe-drying analysis API routes.

The repository contains three near-identical Next.js route handlers:
* `part_000` (and the second handler of `route.ts`): the JSON-structured
  variant of `POST /api/analyze-shoe`;
* `part_001`: the context-aware variant that additionally reads
  `temperature` and `humidity` form fields.

This file gives a shallow embedding of those handlers.  Strings are Lean
strings (lists of characters); JavaScript numbers arising from
`JSON.parse` and `Number(...)` are modelled as exact rationals (IEEE
rounding of doubles is not modelled; none of the properties proved here
depends on rounding).  The external Gemini call is modelled by passing the
provider reply to the handler as an explicit argument, so "the provider is
never called" becomes "the handler result does not depend on the reply".
-/

/- ===== 1. Whitespace ===== -/

/-- The whitespace class of JavaScript string `trim()` and of `\s` in a
regular expression: WhiteSpace plus LineTerminator code points. -/
def isStrWs (c : Char) : Bool :=
  c == ' ' || c == '\t' || c == '\n' || c == '\r' ||
  c.toNat == 0xb || c.toNat == 0xc || c.toNat == 0xa0 || c.toNat == 0x1680 ||
  (0x2000 ≤ c.toNat && c.toNat ≤ 0x200a) ||
  c.toNat == 0x2028 || c.toNat == 0x2029 || c.toNat == 0x202f ||
  c.toNat == 0x205f || c.toNat == 0x3000 || c.toNat == 0xfeff

/-- The four whitespace characters accepted by `JSON.parse` between tokens. -/
def isJsonWs (c : Char) : Bool :=
  c == ' ' || c == '\t' || c == '\n' || c == '\r'

/-- Drop trailing characters satisfying `p` (used for the trailing half of
`trim()` and for the `\s*` of the closing-fence regular expression). -/
def dropTrailing (p : Char → Bool) (l : List Char) : List Char :=
  (l.reverse.dropWhile p).reverse

/-- JavaScript `String.prototype.trim`. -/
def trimChars (l : List Char) : List Char :=
  dropTrailing isStrWs (l.dropWhile isStrWs)

/- ===== 2. The code-fence stripping of the handler ===== -/

/-- The backtick character (written via its code point). -/
def btick : Char := Char.ofNat 0x60

/-- The literal characters of the opening fence regular expression. -/
def fenceJson : List Char := [btick, btick, btick, 'j', 's', 'o', 'n']

/-- The literal characters of the closing fence. -/
def fenceClose : List Char := [btick, btick, btick]

/-- One application of `.replace(/^```json\s*/, '')`: if the text starts
with the literal opening fence, remove it together with the (greedy)
whitespace run that follows; otherwise leave the text unchanged. -/
def stripOpenFence (l : List Char) : List Char :=
  if fenceJson.isPrefixOf l then (l.drop 7).dropWhile isStrWs else l

/-- One application of `.replace(/\s*```$/, '')`: if the text ends with the
literal closing fence, remove it together with the (greedy) whitespace run
that precedes it; otherwise leave the text unchanged. -/
def stripCloseFence (l : List Char) : List Char :=
  if fenceClose.isPrefixOf l.reverse then ((l.reverse.drop 3).dropWhile isStrWs).reverse
  else l

/-- The `cleanedText` of the handler:
`generatedText.trim().replace(/^```json\s*/, '').replace(/\s*```$/, '')`. -/
def cleanedText (t : String) : String :=
  String.mk (stripCloseFence (stripOpenFence (trimChars t.data)))

/- ===== 3. JSON values and JSON.parse ===== -/

/-- JSON values produced by `JSON.parse`.  Object fields are kept in source
order; JavaScript property lookup takes the last binding of a repeated key.
Numbers are exact rationals. -/
inductive Json where
  | null : Json
  | bool (b : Bool) : Json
  | num (q : ℚ) : Json
  | str (s : String) : Json
  | arr (elems : List Json) : Json
  | obj (fields : List (String × Json)) : Json

/-- Numeric value of a run of decimal digits. -/
def digitsToNat (ds : List Char) : Nat :=
  ds.foldl (fun a c => a * 10 + (c.toNat - 48)) 0

/-- Value of a hexadecimal digit, if any. -/
def hexDigitVal (c : Char) : Option Nat :=
  if '0' ≤ c ∧ c ≤ '9' then some (c.toNat - 48)
  else if 'a' ≤ c ∧ c ≤ 'f' then some (c.toNat - 87)
  else if 'A' ≤ c ∧ c ≤ 'F' then some (c.toNat - 55)
  else none

/-- The single-character string escapes of JSON: quote, backslash, slash,
backspace, form feed, line feed, carriage return, tab. -/
def escChar (c : Char) : Option Char :=
  match c with
  | '"' => some '"'
  | '\\' => some '\\'
  | '/' => some '/'
  | 'b' => some (Char.ofNat 8)
  | 'f' => some (Char.ofNat 12)
  | 'n' => some '\n'
  | 'r' => some '\r'
  | 't' => some '\t'
  | _ => none

/-- Body of a JSON string, after the opening quote: returns the decoded
characters and the input remaining after the closing quote.  Control
characters below U+0020 are rejected, as in JSON.  Surrogate-pair escapes
are decoded as two code units here; lone-surrogate subtleties of UTF-16
are outside the model. -/
def parseStrChars : Nat → List Char → Option (List Char × List Char)
  | 0, _ => none
  | _, [] => none
  | fuel + 1, c :: rest =>
    if c == '"' then some ([], rest)
    else if c == '\\' then
      match rest with
      | [] => none
      | e :: rest2 =>
        match escChar e with
        | some d =>
          match parseStrChars fuel rest2 with
          | some (s, r) => some (d :: s, r)
          | none => none
        | none =>
          if e == 'u' then
            match rest2 with
            | h1 :: h2 :: h3 :: h4 :: rest3 =>
              match hexDigitVal h1, hexDigitVal h2, hexDigitVal h3, hexDigitVal h4 with
              | some a, some b, some c2, some d =>
                match parseStrChars fuel rest3 with
                | some (s, r) => some (Char.ofNat (((a * 16 + b) * 16 + c2) * 16 + d) :: s, r)
                | none => none
              | _, _, _, _ => none
            | _ => none
          else none
    else if c.toNat < 0x20 then none
    else
      match parseStrChars fuel rest with
      | some (s, r) => some (c :: s, r)
      | none => none

/-- Exponent suffix of a JSON number (after the mantissa), if present. -/
def parseJNumExp (q : ℚ) (cs : List Char) : Option (ℚ × List Char) :=
  match cs with
  | 'e' :: r => parseJNumExpAfter q r
  | 'E' :: r => parseJNumExpAfter q r
  | _ => some (q, cs)
where
  parseJNumExpAfter (q : ℚ) (cs : List Char) : Option (ℚ × List Char) :=
    let (neg, cs1) :=
      match cs with
      | '+' :: r => (false, r)
      | '-' :: r => (true, r)
      | _ => (false, cs)
    let ds := cs1.takeWhile Char.isDigit
    let r := cs1.dropWhile Char.isDigit
    if ds.isEmpty then none
    else
      let e := digitsToNat ds
      some (if neg then q / ((10 : ℚ) ^ e) else q * ((10 : ℚ) ^ e), r)

/-- Unsigned part of a JSON number: integer part (no leading zeros),
optional fraction, optional exponent. -/
def parseJNumCore (cs : List Char) : Option (ℚ × List Char) :=
  let ds := cs.takeWhile Char.isDigit
  let r1 := cs.dropWhile Char.isDigit
  if ds.isEmpty then none
  else if 2 ≤ ds.length ∧ ds.head? = some '0' then none
  else
    let intPart : ℚ := (digitsToNat ds : ℚ)
    match r1 with
    | '.' :: r2 =>
      let fs := r2.takeWhile Char.isDigit
      let r3 := r2.dropWhile Char.isDigit
      if fs.isEmpty then none
      else parseJNumExp (intPart + (digitsToNat fs : ℚ) / ((10 : ℚ) ^ fs.length)) r3
    | _ => parseJNumExp intPart r1

/-- A JSON number token, with optional leading minus sign. -/
def parseJNum (cs : List Char) : Option (ℚ × List Char) :=
  match cs with
  | '-' :: cs1 =>
    match parseJNumCore cs1 with
    | some (q, r) => some (-q, r)
    | none => none
  | _ => parseJNumCore cs

mutual

/-- One JSON value, starting at the first character of `cs` (leading
whitespace already consumed by the caller). -/
def parseVal : Nat → List Char → Option (Json × List Char)
  | 0, _ => none
  | _, [] => none
  | fuel + 1, c :: rest =>
    if c == '{' then
      match parseObjBody fuel rest with
      | some (fs, r) => some (Json.obj fs, r)
      | none => none
    else if c == '[' then
      match parseArrBody fuel rest with
      | some (vs, r) => some (Json.arr vs, r)
      | none => none
    else if c == '"' then
      match parseStrChars (fuel + 1) rest with
      | some (s, r) => some (Json.str (String.mk s), r)
      | none => none
    else if c == 'n' then
      match rest with
      | 'u' :: 'l' :: 'l' :: r => some (Json.null, r)
      | _ => none
    else if c == 't' then
      match rest with
      | 'r' :: 'u' :: 'e' :: r => some (Json.bool true, r)
      | _ => none
    else if c == 'f' then
      match rest with
      | 'a' :: 'l' :: 's' :: 'e' :: r => some (Json.bool false, r)
      | _ => none
    else
      match parseJNum (c :: rest) with
      | some (q, r) => some (Json.num q, r)
      | none => none

/-- Everything after the `{` of an object. -/
def parseObjBody : Nat → List Char → Option (List (String × Json) × List Char)
  | 0, _ => none
  | fuel + 1, cs =>
    match cs.dropWhile isJsonWs with
    | '}' :: r => some ([], r)
    | r => parseMembers fuel r

/-- A nonempty member list of an object, up to and including the `}`. -/
def parseMembers : Nat → List Char → Option (List (String × Json) × List Char)
  | 0, _ => none
  | fuel + 1, cs =>
    match cs with
    | '"' :: r1 =>
      match parseStrChars (fuel + 1) r1 with
      | some (k, r2) =>
        match r2.dropWhile isJsonWs with
        | ':' :: r3 =>
          match parseVal fuel (r3.dropWhile isJsonWs) with
          | some (v, r4) =>
            match r4.dropWhile isJsonWs with
            | ',' :: r5 =>
              match parseMembers fuel ((r5.dropWhile isJsonWs)) with
              | some (fs, r6) => some ((String.mk k, v) :: fs, r6)
              | none => none
            | '}' :: r5 => some ([(String.mk k, v)], r5)
            | _ => none
          | none => none
        | _ => none
      | none => none
    | _ => none

/-- Everything after the `[` of an array. -/
def parseArrBody : Nat → List Char → Option (List Json × List Char)
  | 0, _ => none
  | fuel + 1, cs =>
    match cs.dropWhile isJsonWs with
    | ']' :: r => some ([], r)
    | r => parseElems fuel r

/-- A nonempty element list of an array, up to and including the `]`. -/
def parseElems : Nat → List Char → Option (List Json × List Char)
  | 0, _ => none
  | fuel + 1, cs =>
    match parseVal fuel cs with
    | some (v, r1) =>
      match r1.dropWhile isJsonWs with
      | ',' :: r2 =>
        match parseElems fuel (r2.dropWhile isJsonWs) with
        | some (vs, r3) => some (v :: vs, r3)
        | none => none
      | ']' :: r2 => some ([v], r2)
      | _ => none
    | none => none

end

/-- `JSON.parse`: optional surrounding whitespace around exactly one value.
The fuel `4 * length + 8` dominates the recursion depth of any input. -/
def jsonParse (s : String) : Option Json :=
  let cs := s.data
  match parseVal (4 * cs.length + 8) (cs.dropWhile isJsonWs) with
  | some (v, rest) => if rest.all isJsonWs then some v else none
  | none => none

/- ===== 4. JavaScript property access, truthiness, validation ===== -/

/-- JavaScript property lookup on a parsed JSON value: `undefined` (here
`none`) on non-objects; the last binding wins on repeated keys.  (Access on
`null` throws instead; the handler treats that inside its catch, see
`normalizeText`.) -/
def getProp (v : Json) (k : String) : Option Json :=
  match v with
  | Json.obj fs => fs.foldl (fun acc p => if p.1 = k then some p.2 else acc) none
  | _ => none

/-- JavaScript truthiness of a JSON value. -/
def jsTruthy (v : Json) : Bool :=
  match v with
  | Json.null => false
  | Json.bool b => b
  | Json.num q => !(q == 0)
  | Json.str s => !(s == "")
  | Json.arr _ => true
  | Json.obj _ => true

/-- Truthiness including `undefined`. -/
def jsTruthyOpt (v : Option Json) : Bool :=
  match v with
  | none => false
  | some v => jsTruthy v

/-- Whether an (optional) value has JavaScript `typeof ... === 'number'`. -/
def isNumberJson (v : Option Json) : Bool :=
  match v with
  | some (Json.num _) => true
  | _ => false

/-- The handler's result-normalization step (the inner `try` block): clean
the text, `JSON.parse` it, then require `analysisObject.shoe_type` truthy
and `typeof analysisObject.recommended_time_minutes === 'number'`.  Any
parse error, the `TypeError` of property access on `null`, and the
explicitly thrown validation error all land in the same `catch`, i.e.
produce `none` here. -/
def normalizeText (t : String) : Option (Json × ℚ) :=
  match jsonParse (cleanedText t) with
  | none => none
  | some Json.null => none
  | some v =>
    match getProp v "shoe_type", getProp v "recommended_time_minutes" with
    | some st, some (Json.num m) => if jsTruthy st then some (st, m) else none
    | _, _ => none

/-- The shape demanded by the specification wording of claims C3/C4: the
cleaned text parses as an object whose `shoe_type` is a string and whose
`recommended_time_minutes` is a number.  (Second definition, from the
specification rather than the source, kept for comparison with the code's
own check in `normalizeText`.) -/
def specRequiredShape (t : String) : Bool :=
  match jsonParse (cleanedText t) with
  | some v =>
    (match getProp v "shoe_type" with
     | some (Json.str _) => true
     | _ => false) &&
    isNumberJson (getProp v "recommended_time_minutes")
  | none => false

/-- The validity notion of claim C2: the text itself is JSON whose value
passes the handler's two-field check. -/
def validStructure (v : Json) : Bool :=
  jsTruthyOpt (getProp v "shoe_type") && isNumberJson (getProp v "recommended_time_minutes")

/- ===== 5. Provider replies, requests and responses ===== -/

/-- One part of a candidate's content (only the text field is read). -/
structure GPart where
  text : Option String

/-- Content of a candidate; the parts array is itself optional in the API. -/
structure GContent where
  parts : Option (List GPart)

/-- One reply candidate. -/
structure GCandidate where
  content : Option GContent

/-- A safety rating, opaque to the handler and echoed verbatim. -/
structure SafetyRating where
  category : String
  probability : String

/-- Prompt feedback, carrying the optional block reason. -/
structure PromptFeedback where
  blockReason : Option String
  safetyRatings : Option (List SafetyRating)

/-- The provider reply (`GenerateContentResponse`), as far as the handler
reads it. -/
structure GeminiResponse where
  candidates : Option (List GCandidate)
  promptFeedback : Option PromptFeedback

/-- The extraction `response.candidates?.[0]?.content?.parts?.[0]?.text`. -/
def genText (r : GeminiResponse) : Option String :=
  match r.candidates with
  | some (c :: _) =>
    match c.content with
    | some ct =>
      match ct.parts with
      | some (p :: _) => p.text
      | _ => none
    | none => none
  | _ => none

/-- An uploaded file as the handler reads it (only name and size are used;
the bytes and media type flow only into the provider call, which is
external to the model). -/
structure FilePart where
  name : String
  size : Nat

/-- A multipart form entry: `formData.get` yields a string or a file (or
`null`, modelled by `Option` at the use sites). -/
inductive FormEntry where
  | str (s : String) : FormEntry
  | file (f : FilePart) : FormEntry

/-- The request of the plain JSON-structured variant. -/
structure AnalyzeRequest where
  file : Option FormEntry

/-- The request of the context-aware variant. -/
structure CtxRequest where
  file : Option FormEntry
  temperature : Option FormEntry
  humidity : Option FormEntry

/-- JavaScript numbers as produced by `Number(...)` on a string: finite
values are exact rationals; the infinities are kept apart.  `NaN` is
represented by `none` at the use sites. -/
inductive JsNum where
  | fin (q : ℚ) : JsNum
  | posInf : JsNum
  | negInf : JsNum

/-- The response bodies the two handlers can produce. -/
inductive RespBody where
  | err (error : String) : RespBody
  | errSafety (error : String) (safety_ratings : Option (List SafetyRating)) : RespBody
  | errRaw (error : String) (gemini_raw_output : String) : RespBody
  | errDebug (error : String) (full_response_debug : GeminiResponse) : RespBody
  | ok (filename : String) (filesize : Nat) (shoe_type : Json)
      (recommended_time_minutes : ℚ) (model_used : String) : RespBody
  | okCtx (filename : String) (filesize : Nat) (shoe_type : Json)
      (recommended_time_minutes : ℚ) (temperature : JsNum) (humidity : JsNum)
      (model_used : String) : RespBody

/-- An HTTP response: status and JSON body.  (The CORS headers of
`part_000`/`part_001` are constant on every exit and are not modelled.) -/
structure Resp where
  status : Nat
  body : RespBody

namespace AnalyzeShoe

/-- Error message for a missing or non-file upload. -/
def fileMsg : String := "Invalid or missing file upload (expecting field name \"file\")."

/-- Error message for an empty upload. -/
def emptyMsg : String := "Uploaded file is empty."

/-- Error message of the parse-failure branch. -/
def parseFailMsg : String :=
  "Analysis successful but failed to parse JSON output from Gemini. Check prompt compliance."

/-- Prefix of the 403 message; the block reason is appended verbatim. -/
def blockMsgPre : String := "Content was blocked due to safety settings: "

/-- Message of the no-output branch. -/
def noOutputMsg : String :=
  "Gemini did not return any text output or the response structure was unexpected."

/-- The branch taken when `generatedText` is falsy: 403 on a truthy block
reason, otherwise 500 with the whole reply attached. -/
def afterText (reply : GeminiResponse) : Resp :=
  match reply.promptFeedback with
  | some fb =>
    match fb.blockReason with
    | some r =>
      if r = "" then ⟨500, RespBody.errDebug noOutputMsg reply⟩
      else ⟨403, RespBody.errSafety (blockMsgPre ++ r) fb.safetyRatings⟩
    | none => ⟨500, RespBody.errDebug noOutputMsg reply⟩
  | none => ⟨500, RespBody.errDebug noOutputMsg reply⟩

/-- The POST handler of `part_000` (identically, the JSON-structured
handler of `route.ts`), with the provider reply passed explicitly.
`if (generatedText)` is JavaScript truthiness: the empty string falls
through to the feedback branch. -/
def POST (req : AnalyzeRequest) (reply : GeminiResponse) : Resp :=
  match req.file with
  | none => ⟨400, RespBody.err fileMsg⟩
  | some (FormEntry.str _) => ⟨400, RespBody.err fileMsg⟩
  | some (FormEntry.file f) =>
    if f.size = 0 then ⟨400, RespBody.err emptyMsg⟩
    else
      match genText reply with
      | some t =>
        if t = "" then afterText reply
        else
          match normalizeText t with
          | some (st, m) => ⟨200, RespBody.ok f.name f.size st m "gemini-2.5-flash"⟩
          | none => ⟨500, RespBody.errRaw parseFailMsg t⟩
      | none => afterText reply

end AnalyzeShoe

/- ===== 6. Number() and the context-aware handler ===== -/

/-- Digits of the given radix read as a number; `none` unless the whole
list is nonempty and valid. -/
def radixAll (radix : Nat) (cs : List Char) : Option Nat :=
  match cs with
  | [] => none
  | _ =>
    cs.foldl
      (fun acc c =>
        match acc, hexDigitVal c with
        | some a, some d => if d < radix then some (a * radix + d) else none
        | _, _ => none)
      (some 0)

/-- Exponent suffix for `Number(...)` decimal literals; must consume the
whole remaining input. -/
def strNumExp (q : ℚ) (cs : List Char) : Option JsNum :=
  let (neg, cs1) :=
    match cs with
    | '+' :: r => (false, r)
    | '-' :: r => (true, r)
    | _ => (false, cs)
  let ds := cs1.takeWhile Char.isDigit
  if ds.isEmpty ∨ ¬(cs1.dropWhile Char.isDigit).isEmpty then none
  else some (JsNum.fin (if neg then q / ((10 : ℚ) ^ digitsToNat ds) else q * ((10 : ℚ) ^ digitsToNat ds)))

/-- An unsigned decimal `Number(...)` literal or `Infinity`, consuming the
whole input.  Leading zeros are allowed here (unlike JSON). -/
def strNumUnsigned (cs : List Char) : Option JsNum :=
  if cs = "Infinity".data then some JsNum.posInf
  else
    let ds := cs.takeWhile Char.isDigit
    let r1 := cs.dropWhile Char.isDigit
    match r1 with
    | [] => if ds.isEmpty then none else some (JsNum.fin (digitsToNat ds : ℚ))
    | '.' :: r2 =>
      let fs := r2.takeWhile Char.isDigit
      let r3 := r2.dropWhile Char.isDigit
      if ds.isEmpty ∧ fs.isEmpty then none
      else
        let base : ℚ := (digitsToNat ds : ℚ) + (digitsToNat fs : ℚ) / ((10 : ℚ) ^ fs.length)
        match r3 with
        | [] => some (JsNum.fin base)
        | e :: r4 => if e = 'e' ∨ e = 'E' then strNumExp base r4 else none
    | e :: r2 =>
      if ds.isEmpty then none
      else if e = 'e' ∨ e = 'E' then strNumExp (digitsToNat ds : ℚ) r2 else none

/-- Negation on JavaScript numbers. -/
def negJsNum (n : JsNum) : JsNum :=
  match n with
  | JsNum.fin q => JsNum.fin (-q)
  | JsNum.posInf => JsNum.negInf
  | JsNum.negInf => JsNum.posInf

/-- A trimmed, nonempty `StringNumericLiteral`: a sign is only allowed on
decimal literals and `Infinity`; `0x`/`0o`/`0b` literals are unsigned. -/
def strNumLiteral (cs : List Char) : Option JsNum :=
  match cs with
  | '+' :: r => strNumUnsigned r
  | '-' :: r =>
    match strNumUnsigned r with
    | some n => some (negJsNum n)
    | none => none
  | '0' :: x :: r =>
    if x = 'x' ∨ x = 'X' then (radixAll 16 r).map (fun n => JsNum.fin (n : ℚ))
    else if x = 'o' ∨ x = 'O' then (radixAll 8 r).map (fun n => JsNum.fin (n : ℚ))
    else if x = 'b' ∨ x = 'B' then (radixAll 2 r).map (fun n => JsNum.fin (n : ℚ))
    else strNumUnsigned cs
  | _ => strNumUnsigned cs

/-- JavaScript `Number(string)`: trim, empty means `0`, otherwise the
string numeric literal; `none` is `NaN`. -/
def jsStringToNumber (s : String) : Option JsNum :=
  let t := trimChars s.data
  if t.isEmpty then some (JsNum.fin 0) else strNumLiteral t

/-- The value bound by `raw ? Number(raw) : undefined` followed by the
`undefined`/`NaN` test of the handler: `none` exactly when the handler
rejects the field (absent, empty string, or not numeric).  `Number` of a
`File` object is `NaN`. -/
def entryToNum (e : Option FormEntry) : Option JsNum :=
  match e with
  | none => none
  | some (FormEntry.str s) => if s = "" then none else jsStringToNumber s
  | some (FormEntry.file _) => none

namespace AnalyzeCtx

/-- Error message for a missing or invalid numeric context field. -/
def ctxNumMsg : String := "Missing or invalid humidity/temperature. Both must be numeric."

/-- Error message of the parse-failure branch of the context variant. -/
def ctxParseFailMsg : String :=
  "Analysis succeeded but the JSON response from Gemini could not be parsed."

/-- Prefix of the 403 message of the context variant. -/
def ctxBlockMsgPre : String := "Content blocked due to safety settings: "

/-- Message of the no-output branch of the context variant. -/
def ctxNoOutputMsg : String := "Gemini did not return valid text. See debug info."

/-- The falsy-text branch of the context variant. -/
def afterText (reply : GeminiResponse) : Resp :=
  match reply.promptFeedback with
  | some fb =>
    match fb.blockReason with
    | some r =>
      if r = "" then ⟨500, RespBody.errDebug ctxNoOutputMsg reply⟩
      else ⟨403, RespBody.errSafety (ctxBlockMsgPre ++ r) fb.safetyRatings⟩
    | none => ⟨500, RespBody.errDebug ctxNoOutputMsg reply⟩
  | none => ⟨500, RespBody.errDebug ctxNoOutputMsg reply⟩

/-- The POST handler of `part_001`: file checks, then the
humidity/temperature extraction and check, then the provider call and the
same normalization as the plain variant. -/
def POST (req : CtxRequest) (reply : GeminiResponse) : Resp :=
  match req.file with
  | none => ⟨400, RespBody.err AnalyzeShoe.fileMsg⟩
  | some (FormEntry.str _) => ⟨400, RespBody.err AnalyzeShoe.fileMsg⟩
  | some (FormEntry.file f) =>
    if f.size = 0 then ⟨400, RespBody.err AnalyzeShoe.emptyMsg⟩
    else
      match entryToNum req.humidity, entryToNum req.temperature with
      | some h, some tp =>
        (match genText reply with
         | some t =>
           if t = "" then afterText reply
           else
             match normalizeText t with
             | some (st, m) =>
               ⟨200, RespBody.okCtx f.name f.size st m tp h "gemini-2.5-flash"⟩
             | none => ⟨500, RespBody.errRaw ctxParseFailMsg t⟩
         | none => afterText reply)
      | _, _ => ⟨400, RespBody.err ctxNumMsg⟩

end AnalyzeCtx

/- ===== 7. Additional definitions used by the claims ===== -/

/-- The fence-wrapped text of claim C2: the opening fence, whitespace, the
payload, whitespace, the closing fence. -/
def fenceWrap (ws1 t ws2 : String) : String :=
  "```json" ++ ws1 ++ t ++ ws2 ++ "```"

/-- Whether a supplied form entry fails JavaScript numeric parsing
(`Number(value)` is `NaN`); `Number` of a `File` is always `NaN`. -/
def entryNaN (e : FormEntry) : Bool :=
  match e with
  | FormEntry.str s => (jsStringToNumber s).isNone
  | FormEntry.file _ => true

/- Concrete inputs used by witnesses and counterexamples. -/

/-- A provider reply whose first candidate's first part carries `t`. -/
def replyOfText (t : String) : GeminiResponse :=
  ⟨some [⟨some ⟨some [⟨some t⟩]⟩⟩], none⟩

/-- A provider reply with no candidates and no feedback. -/
def replyEmpty : GeminiResponse := ⟨none, none⟩

/-- A blocked reply: no candidates, feedback with reason and one rating. -/
def replyBlocked : GeminiResponse :=
  ⟨none, some ⟨some "SAFETY", some [⟨"HARM_CATEGORY_DANGEROUS_CONTENT", "HIGH"⟩]⟩⟩

/-- A valid four-byte upload request. -/
def reqStd : AnalyzeRequest := ⟨some (FormEntry.file ⟨"shoe.jpg", 4⟩)⟩

/-- Provider text recommending 120 minutes, above the documented ceiling. -/
def tOver : String := "\x7b\"shoe_type\": \"Boot\", \"recommended_time_minutes\": 120\x7d"

/-- Provider text recommending 75 minutes. -/
def tSeventyFive : String := "\x7b\"shoe_type\": \"Sneaker\", \"recommended_time_minutes\": 75\x7d"

/-- Provider text whose shoe_type is a boolean. -/
def tBoolLabel : String := "\x7b\"shoe_type\": true, \"recommended_time_minutes\": 30\x7d"

/-- Provider text whose shoe_type is the number 5. -/
def tNumLabel : String := "\x7b\"shoe_type\": 5, \"recommended_time_minutes\": 40\x7d"

/-- Provider text whose recommended_time_minutes is the string "40". -/
def tStrMinutes : String := "\x7b\"shoe_type\": \"Sneaker\", \"recommended_time_minutes\": \"40\"\x7d"

/-- Provider text whose shoe_type is the empty string. -/
def tEmptyLabel : String := "\x7b\"shoe_type\": \"\", \"recommended_time_minutes\": 40\x7d"

/-- Provider text that is a fence around a non-JSON payload. -/
def tFenced : String := "```json not-json```"

/-- A well-formed provider text recommending 40 minutes. -/
def tValid : String := "\x7b\"shoe_type\": \"Sneaker\", \"recommended_time_minutes\": 40\x7d"

/-- The parse of `tValid`. -/
def vValid : Json :=
  Json.obj [("shoe_type", Json.str "Sneaker"), ("recommended_time_minutes", Json.num 40)]

/- ===== 8. General lemmas ===== -/

theorem isStrWs_of_isJsonWs {c : Char} (h : isJsonWs c = true) : isStrWs c = true := by
  simp only [isJsonWs, Bool.or_eq_true] at h
  rcases h with ((h | h) | h) | h <;> simp [isStrWs, h]

theorem suffix_tail1 {c : Char} {l r : List Char} (h : r <:+ l) : r <:+ c :: l :=
  h.trans (List.suffix_cons c l)

theorem sfx_dw {p : Char → Bool} {l r : List Char} (h : r <:+ l.dropWhile p) : r <:+ l :=
  h.trans (List.dropWhile_suffix p)

theorem sfx_of_dw_cons {p : Char → Bool} {c : Char} {l r : List Char}
    (heq : l.dropWhile p = c :: r) : r <:+ l :=
  sfx_dw (heq ▸ List.suffix_cons c r)

theorem close_pre {r Y X : List Char} (a : List Char) (hXY : X = a ++ Y)
    (h : ∃ mid, Y = mid ++ '}' :: r) : ∃ mid, X = mid ++ '}' :: r := by
  obtain ⟨m, hm⟩ := h
  exact ⟨a ++ m, by rw [hXY, hm, List.append_assoc]⟩

theorem tadw (p : Char → Bool) (l : List Char) : l = l.takeWhile p ++ l.dropWhile p :=
  (List.takeWhile_append_dropWhile p l).symm

theorem dwAll {p : Char → Bool} {u : List Char} (v : List Char)
    (h : ∀ c ∈ u, p c = true) : (u ++ v).dropWhile p = v.dropWhile p := by
  induction u with
  | nil => rfl
  | cons a u ih =>
    rw [List.cons_append, List.dropWhile_cons, if_pos (h a (by simp))]
    exact ih fun c hc => h c (by simp [hc])

theorem dwConsNeg {p : Char → Bool} {c : Char} (l : List Char) (h : p c = false) :
    (c :: l).dropWhile p = c :: l := by
  rw [List.dropWhile_cons, h]; simp

theorem ipo_self (l r : List Char) : l.isPrefixOf (l ++ r) = true := by
  induction l with
  | nil => simp [List.isPrefixOf]
  | cons a l ih => simp [List.isPrefixOf, ih]

theorem ipo_head_ne {a b : Char} (l m : List Char) (h : (a == b) = false) :
    (a :: l).isPrefixOf (b :: m) = false := by
  simp only [List.isPrefixOf, h, Bool.false_and]

theorem allRev {p : Char → Bool} {l : List Char} (h : ∀ c ∈ l, p c = true) :
    ∀ c ∈ l.reverse, p c = true := fun c hc => h c (List.mem_reverse.mp hc)

/- ===== 9. Parser structure lemmas ===== -/

theorem parseStrChars_suffix (fuel : Nat) :
    ∀ cs out, parseStrChars fuel cs = some out → out.2 <:+ cs := by
  induction fuel with
  | zero => intro cs out h; simp [parseStrChars] at h
  | succ n ih =>
    intro cs out h
    match cs with
    | [] => simp [parseStrChars] at h
    | c :: rest =>
      simp only [parseStrChars] at h
      split at h
      · injection h with h'; subst h'; exact List.suffix_cons c rest
      · split at h
        · split at h
          · exact absurd h (by simp)
          · split at h
            · split at h
              · rename_i s r heq
                injection h with h'; subst h'
                exact suffix_tail1 (suffix_tail1 (ih _ (s, r) heq))
              · exact absurd h (by simp)
            · split at h
              · split at h
                · split at h
                  · split at h
                    · rename_i s r heq
                      injection h with h'; subst h'
                      exact suffix_tail1 (suffix_tail1 (suffix_tail1 (suffix_tail1
                        (suffix_tail1 (suffix_tail1 (ih _ (s, r) heq))))))
                    · exact absurd h (by simp)
                  · exact absurd h (by simp)
                · exact absurd h (by simp)
              · exact absurd h (by simp)
        · split at h
          · exact absurd h (by simp)
          · split at h
            · rename_i s r heq
              injection h with h'; subst h'
              exact suffix_tail1 (ih _ (s, r) heq)
            · exact absurd h (by simp)

theorem parseJNumExpAfter_suffix (q : ℚ) (cs : List Char) (out : ℚ × List Char)
    (h : parseJNumExp.parseJNumExpAfter q cs = some out) : out.2 <:+ cs := by
  simp only [parseJNumExp.parseJNumExpAfter] at h
  split at h
  · exact absurd h (by simp)
  · injection h with h'; subst h'
    split at *
    all_goals rename_i hpat
    · exact suffix_tail1 (List.dropWhile_suffix _)
    · exact suffix_tail1 (List.dropWhile_suffix _)
    · exact List.dropWhile_suffix _

theorem parseJNumExp_suffix (q : ℚ) (cs : List Char) (out : ℚ × List Char)
    (h : parseJNumExp q cs = some out) : out.2 <:+ cs := by
  simp only [parseJNumExp] at h
  split at h
  · exact suffix_tail1 (parseJNumExpAfter_suffix _ _ _ h)
  · exact suffix_tail1 (parseJNumExpAfter_suffix _ _ _ h)
  · injection h with h'; subst h'; exact List.suffix_refl _

theorem parseJNumCore_suffix (cs : List Char) (out : ℚ × List Char)
    (h : parseJNumCore cs = some out) : out.2 <:+ cs := by
  simp only [parseJNumCore] at h
  split at h
  · exact absurd h (by simp)
  · split at h
    · exact absurd h (by simp)
    · split at h
      · rename_i r2 heq
        split at h
        · exact absurd h (by simp)
        · have h1 : out.2 <:+ r2.dropWhile Char.isDigit := parseJNumExp_suffix _ _ _ h
          exact (sfx_dw h1).trans (sfx_of_dw_cons heq)
      · exact sfx_dw (parseJNumExp_suffix _ _ _ h)

theorem parseJNum_suffix (cs : List Char) (out : ℚ × List Char)
    (h : parseJNum cs = some out) : out.2 <:+ cs := by
  simp only [parseJNum] at h
  split at h
  · split at h
    · rename_i q r heq
      injection h with h'; subst h'
      exact suffix_tail1 (parseJNumCore_suffix _ (q, r) heq)
    · exact absurd h (by simp)
  · exact parseJNumCore_suffix _ _ h

theorem parse_suffix (fuel : Nat) :
    (∀ cs out, parseVal fuel cs = some out → out.2 <:+ cs) ∧
    (∀ cs out, parseObjBody fuel cs = some out → out.2 <:+ cs) ∧
    (∀ cs out, parseMembers fuel cs = some out → out.2 <:+ cs) ∧
    (∀ cs out, parseArrBody fuel cs = some out → out.2 <:+ cs) ∧
    (∀ cs out, parseElems fuel cs = some out → out.2 <:+ cs) := by
  induction fuel with
  | zero =>
    exact ⟨fun cs out h => by cases cs <;> simp [parseVal] at h,
           fun cs out h => by simp [parseObjBody] at h,
           fun cs out h => by simp [parseMembers] at h,
           fun cs out h => by simp [parseArrBody] at h,
           fun cs out h => by simp [parseElems] at h⟩
  | succ n ih =>
    obtain ⟨ihV, ihO, ihM, ihA, ihE⟩ := ih
    refine ⟨?_, ?_, ?_, ?_, ?_⟩
    · -- parseVal
      intro cs out h
      match cs with
      | [] => simp [parseVal] at h
      | c :: rest =>
        simp only [parseVal] at h
        split at h
        · split at h
          · rename_i fs r heq
            injection h with h'; subst h'
            exact suffix_tail1 (ihO _ (fs, r) heq)
          · exact absurd h (by simp)
        · split at h
          · split at h
            · rename_i vs r heq
              injection h with h'; subst h'
              exact suffix_tail1 (ihA _ (vs, r) heq)
            · exact absurd h (by simp)
          · split at h
            · split at h
              · rename_i s r heq
                injection h with h'; subst h'
                exact suffix_tail1 (parseStrChars_suffix _ _ (s, r) heq)
              · exact absurd h (by simp)
            · split at h
              · split at h
                · rename_i r
                  injection h with h'; subst h'
                  exact ⟨[c, 'u', 'l', 'l'], rfl⟩
                · exact absurd h (by simp)
              · split at h
                · split at h
                  · rename_i r
                    injection h with h'; subst h'
                    exact ⟨[c, 'r', 'u', 'e'], rfl⟩
                  · exact absurd h (by simp)
                · split at h
                  · split at h
                    · rename_i r
                      injection h with h'; subst h'
                      exact ⟨[c, 'a', 'l', 's', 'e'], rfl⟩
                    · exact absurd h (by simp)
                  · split at h
                    · rename_i q r heq
                      injection h with h'; subst h'
                      exact parseJNum_suffix _ (q, r) heq
                    · exact absurd h (by simp)
    · -- parseObjBody
      intro cs out h
      simp only [parseObjBody] at h
      split at h
      · rename_i r heq
        injection h with h'; subst h'
        exact sfx_of_dw_cons heq
      · exact sfx_dw (ihM _ _ h)
    · -- parseMembers
      intro cs out h
      simp only [parseMembers] at h
      split at h
      · rename_i r1
        split at h
        · rename_i k r2 heq1
          split at h
          · rename_i r3 heq2
            split at h
            · rename_i v r4 heq3
              split at h
              · rename_i r5 heq4
                split at h
                · rename_i fs r6 heq5
                  injection h with h'; subst h'
                  have s6 : r6 <:+ r5 := sfx_dw (ihM _ (fs, r6) heq5)
                  have s5 : r5 <:+ r4 := sfx_of_dw_cons heq4
                  have s4 : r4 <:+ r3 := sfx_dw (ihV _ (v, r4) heq3)
                  have s3 : r3 <:+ r2 := sfx_of_dw_cons heq2
                  have s2 : r2 <:+ r1 := parseStrChars_suffix _ _ (k, r2) heq1
                  exact suffix_tail1 ((((s6.trans s5).trans s4).trans s3).trans s2)
                · exact absurd h (by simp)
              · rename_i r5 heq4
                injection h with h'; subst h'
                have s5 : r5 <:+ r4 := sfx_of_dw_cons heq4
                have s4 : r4 <:+ r3 := sfx_dw (ihV _ (v, r4) heq3)
                have s3 : r3 <:+ r2 := sfx_of_dw_cons heq2
                have s2 : r2 <:+ r1 := parseStrChars_suffix _ _ (k, r2) heq1
                exact suffix_tail1 (((s5.trans s4).trans s3).trans s2)
              · exact absurd h (by simp)
            · exact absurd h (by simp)
          · exact absurd h (by simp)
        · exact absurd h (by simp)
      · exact absurd h (by simp)
    · -- parseArrBody
      intro cs out h
      simp only [parseArrBody] at h
      split at h
      · rename_i r heq
        injection h with h'; subst h'
        exact sfx_of_dw_cons heq
      · exact sfx_dw (ihE _ _ h)
    · -- parseElems
      intro cs out h
      simp only [parseElems] at h
      split at h
      · rename_i v r1 heq1
        split at h
        · rename_i r2 heq2
          split at h
          · rename_i vs r3 heq3
            injection h with h'; subst h'
            have s3 : r3 <:+ r2 := sfx_dw (ihE _ (vs, r3) heq3)
            have s2 : r2 <:+ r1 := sfx_of_dw_cons heq2
            exact (s3.trans s2).trans (ihV _ (v, r1) heq1)
          · exact absurd h (by simp)
        · rename_i r2 heq2
          injection h with h'; subst h'
          exact (sfx_of_dw_cons heq2).trans (ihV _ (v, r1) heq1)
        · exact absurd h (by simp)
      · exact absurd h (by simp)

theorem parse_close (fuel : Nat) :
    (∀ cs out, parseObjBody fuel cs = some out → ∃ mid, cs = mid ++ '}' :: out.2) ∧
    (∀ cs out, parseMembers fuel cs = some out → ∃ mid, cs = mid ++ '}' :: out.2) := by
  induction fuel with
  | zero =>
    exact ⟨fun cs out h => by simp [parseObjBody] at h,
           fun cs out h => by simp [parseMembers] at h⟩
  | succ n ih =>
    obtain ⟨ihO, ihM⟩ := ih
    constructor
    · intro cs out h
      simp only [parseObjBody] at h
      split at h
      · rename_i r heq
        injection h with h'; subst h'
        refine close_pre (cs.takeWhile isJsonWs) (tadw isJsonWs cs) ⟨[], ?_⟩
        rw [heq]; rfl
      · exact close_pre (cs.takeWhile isJsonWs) (tadw isJsonWs cs) (ihM _ _ h)
    · intro cs out h
      simp only [parseMembers] at h
      split at h
      · rename_i r1
        split at h
        · rename_i k r2 heq1
          split at h
          · rename_i r3 heq2
            split at h
            · rename_i v r4 heq3
              obtain ⟨p4, hp4⟩ := parse_suffix n |>.1 _ (v, r4) heq3
              obtain ⟨p1, hp1⟩ := parseStrChars_suffix _ _ (k, r2) heq1
              have e2 : r2 = r2.takeWhile isJsonWs ++ (':' :: r3) := by
                have := tadw isJsonWs r2; rwa [heq2] at this
              split at h
              · rename_i r5 heq4
                split at h
                · rename_i fs r6 heq5
                  injection h with h'; subst h'
                  have e4 : r4 = r4.takeWhile isJsonWs ++ (',' :: r5) := by
                    have := tadw isJsonWs r4; rwa [heq4] at this
                  refine close_pre ['"'] rfl (close_pre p1 hp1.symm (close_pre
                    (r2.takeWhile isJsonWs) e2 ?_))
                  refine close_pre [':'] rfl (close_pre (r3.takeWhile isJsonWs)
                    (tadw isJsonWs r3) (close_pre p4 hp4.symm ?_))
                  refine close_pre (r4.takeWhile isJsonWs) e4 (close_pre [','] rfl
                    (close_pre (r5.takeWhile isJsonWs) (tadw isJsonWs r5) ?_))
                  exact ihM _ (fs, r6) heq5
                · exact absurd h (by simp)
              · rename_i r5 heq4
                injection h with h'; subst h'
                refine close_pre ['"'] rfl (close_pre p1 hp1.symm (close_pre
                  (r2.takeWhile isJsonWs) e2 ?_))
                refine close_pre [':'] rfl (close_pre (r3.takeWhile isJsonWs)
                  (tadw isJsonWs r3) (close_pre p4 hp4.symm ?_))
                exact ⟨r4.takeWhile isJsonWs, by
                  have := tadw isJsonWs r4; rwa [heq4] at this⟩
              · exact absurd h (by simp)
            · exact absurd h (by simp)
          · exact absurd h (by simp)
        · exact absurd h (by simp)
      · exact absurd h (by simp)

theorem parseVal_obj_head (fuel : Nat) (cs : List Char) (fs : List (String × Json))
    (r : List Char) (h : parseVal fuel cs = some (Json.obj fs, r)) :
    ∃ n cs0, cs = '{' :: cs0 ∧ parseObjBody n cs0 = some (fs, r) := by
  match fuel, cs with
  | 0, cs2 => cases cs2 <;> simp [parseVal] at h
  | _ + 1, [] => simp [parseVal] at h
  | n + 1, c :: rest =>
    simp only [parseVal] at h
    split at h
    · rename_i hc
      split at h
      · rename_i fs' r' heq
        injection h with h'
        have hfs : fs' = fs := by
          have := congrArg Prod.fst h'
          simpa using this
        have hr : r' = r := by
          have := congrArg Prod.snd h'
          simpa using this
        subst hfs; subst hr
        exact ⟨n, rest, by rw [show c = '{' from by simpa using hc], heq⟩
      · exact absurd h (by simp)
    · split at h
      · split at h
        · rename_i vs r' heq
          exact absurd h (by simp)
        · exact absurd h (by simp)
      · split at h
        · split at h
          · exact absurd h (by simp)
          · exact absurd h (by simp)
        · split at h
          · split at h
            · exact absurd h (by simp)
            · exact absurd h (by simp)
          · split at h
            · split at h
              · exact absurd h (by simp)
              · exact absurd h (by simp)
            · split at h
              · split at h
                · exact absurd h (by simp)
                · exact absurd h (by simp)
              · split at h
                · exact absurd h (by simp)
                · exact absurd h (by simp)

theorem jsonParse_obj_shape (t : String) (fs : List (String × Json))
    (h : jsonParse t = some (Json.obj fs)) :
    ∃ jws mid rest, t.data = jws ++ '{' :: (mid ++ '}' :: rest) ∧
      (∀ c ∈ jws, isJsonWs c = true) ∧ (∀ c ∈ rest, isJsonWs c = true) := by
  simp only [jsonParse] at h
  split at h
  · rename_i v rest heq
    split at h
    · rename_i hall
      injection h with h'; subst h'
      obtain ⟨n, cs0, hcons, hob⟩ := parseVal_obj_head _ _ _ _ heq
      obtain ⟨mid, hmid⟩ := (parse_close n).1 _ _ hob
      refine ⟨t.data.takeWhile isJsonWs, mid, rest, ?_, ?_, ?_⟩
      · conv_lhs => rw [tadw isJsonWs t.data]
        rw [hcons, hmid]
      · exact fun c hc => List.mem_takeWhile_imp hc
      · exact List.all_eq_true.mp hall
    · exact absurd h (by simp)
  · exact absurd h (by simp)

/- ===== 10. Normalization lemmas ===== -/

theorem trim_core (jws mid rest : List Char)
    (hj : ∀ c ∈ jws, isStrWs c = true) (hr : ∀ c ∈ rest, isStrWs c = true) :
    trimChars (jws ++ '{' :: (mid ++ '}' :: rest)) = '{' :: (mid ++ ['}']) := by
  unfold trimChars dropTrailing
  rw [dwAll _ hj, dwConsNeg _ (by decide)]
  have hrev : ('{' :: (mid ++ '}' :: rest)).reverse
      = rest.reverse ++ '}' :: (mid.reverse ++ ['{']) := by
    simp
  rw [hrev, dwAll _ (allRev hr), dwConsNeg _ (by decide)]
  simp

theorem strip_core (mid : List Char) :
    stripCloseFence (stripOpenFence ('{' :: (mid ++ ['}']))) = '{' :: (mid ++ ['}']) := by
  have h1 : stripOpenFence ('{' :: (mid ++ ['}'])) = '{' :: (mid ++ ['}']) := by
    unfold stripOpenFence
    rw [show fenceJson = btick :: [btick, btick, 'j', 's', 'o', 'n'] from rfl]
    rw [ipo_head_ne _ _ (by decide)]
    simp
  rw [h1]
  unfold stripCloseFence
  have hrev : ('{' :: (mid ++ ['}'])).reverse = '}' :: (mid.reverse ++ ['{']) := by
    simp
  rw [hrev]
  rw [show fenceClose = btick :: [btick, btick] from rfl]
  rw [ipo_head_ne _ _ (by decide)]
  simp [← hrev]

theorem strip_wrapped (ws1 ws2 jws mid rest : List Char)
    (hw1 : ∀ c ∈ ws1, isStrWs c = true) (hw2 : ∀ c ∈ ws2, isStrWs c = true)
    (hj : ∀ c ∈ jws, isStrWs c = true) (hr : ∀ c ∈ rest, isStrWs c = true) :
    stripCloseFence (stripOpenFence (trimChars
      (fenceJson ++ (ws1 ++ (jws ++ '{' :: (mid ++ '}' :: (rest ++ (ws2 ++ fenceClose))))))))
      = '{' :: (mid ++ ['}']) := by
  set W := fenceJson ++ (ws1 ++ (jws ++ '{' :: (mid ++ '}' :: (rest ++ (ws2 ++ fenceClose))))) with hW
  have htrim : trimChars W = W := by
    unfold trimChars dropTrailing
    have h1 : W.dropWhile isStrWs = W := by
      rw [hW, show fenceJson = btick :: [btick, btick, 'j', 's', 'o', 'n'] from rfl]
      rw [List.cons_append, dwConsNeg _ (by decide)]
    rw [h1]
    have hrev : W.reverse = btick :: ([btick, btick].reverse ++
        (ws2.reverse ++ (rest.reverse ++ ('}' :: (mid.reverse ++
          ('{' :: (jws.reverse ++ (ws1.reverse ++ fenceJson.reverse)))))))) := by
      rw [hW]
      simp [fenceClose]
    rw [hrev, dwConsNeg _ (by decide), ← hrev]
    simp
  rw [htrim]
  have hopen : stripOpenFence W = '{' :: (mid ++ '}' :: (rest ++ (ws2 ++ fenceClose))) := by
    unfold stripOpenFence
    rw [hW, if_pos (ipo_self fenceJson _)]
    rw [show (7 : Nat) = fenceJson.length from rfl, List.drop_left]
    rw [dwAll _ hw1, dwAll _ hj, dwConsNeg _ (by decide)]
  rw [hopen]
  unfold stripCloseFence
  have hrev2 : ('{' :: (mid ++ '}' :: (rest ++ (ws2 ++ fenceClose)))).reverse
      = fenceClose ++ (ws2.reverse ++ (rest.reverse ++ ('}' :: (mid.reverse ++ ['{'])))) := by
    simp [fenceClose]
  rw [hrev2, if_pos (ipo_self fenceClose _)]
  rw [show (3 : Nat) = fenceClose.length from rfl, List.drop_left]
  rw [dwAll _ (allRev hw2), dwAll _ (allRev hr), dwConsNeg _ (by decide)]
  simp

theorem fenceWrap_data (ws1 t ws2 : String) :
    (fenceWrap ws1 t ws2).data
      = fenceJson ++ (ws1.data ++ (t.data ++ (ws2.data ++ fenceClose))) := by
  show (("```json" ++ ws1 ++ t ++ ws2 ++ "```").data) = _
  simp only [String.data_append, List.append_assoc]
  rfl

theorem normalizeText_congr {x y : String} (h : cleanedText x = cleanedText y) :
    normalizeText x = normalizeText y := by
  unfold normalizeText; rw [h]

theorem validStructure_obj {v : Json} (h : validStructure v = true) :
    ∃ fs, v = Json.obj fs := by
  cases v with
  | obj fs => exact ⟨fs, rfl⟩
  | null => simp [validStructure, getProp, jsTruthyOpt] at h
  | bool b => simp [validStructure, getProp, jsTruthyOpt] at h
  | num q => simp [validStructure, getProp, jsTruthyOpt] at h
  | str s => simp [validStructure, getProp, jsTruthyOpt] at h
  | arr es => simp [validStructure, getProp, jsTruthyOpt] at h

theorem getProp_some_obj {v : Json} {k : String} {j : Json} (h : getProp v k = some j) :
    ∃ fs, v = Json.obj fs := by
  cases v <;> simp [getProp] at h
  exact ⟨_, rfl⟩

theorem text_ne_empty {t : String} {v : Json} (h : jsonParse (cleanedText t) = some v) :
    t ≠ "" := by
  intro he; subst he
  exact Option.noConfusion ((show jsonParse (cleanedText "") = none from rfl).symm.trans h)

theorem normalizeText_none_of_minutes_str {t : String} {v : Json} {s : String}
    (hp : jsonParse (cleanedText t) = some v)
    (hm : getProp v "recommended_time_minutes" = some (Json.str s)) :
    normalizeText t = none := by
  obtain ⟨fs, rfl⟩ := getProp_some_obj hm
  simp [normalizeText, hp, hm]

theorem normalizeText_none_of_shoe_empty {t : String} {v : Json}
    (hp : jsonParse (cleanedText t) = some v)
    (hs : getProp v "shoe_type" = some (Json.str "")) :
    normalizeText t = none := by
  obtain ⟨fs, rfl⟩ := getProp_some_obj hs
  rcases hm : getProp (Json.obj fs) "recommended_time_minutes" with _ | j
  · simp [normalizeText, hp, hs, hm]
  · cases j <;> simp [normalizeText, hp, hs, hm, jsTruthy]

theorem POST_reduce_parse_fail {req : AnalyzeRequest} {f : FilePart} {reply : GeminiResponse}
    {t : String} (hfile : req.file = some (FormEntry.file f)) (hsize : ¬f.size = 0)
    (htext : genText reply = some t) (hne : ¬t = "") (hnorm : normalizeText t = none) :
    AnalyzeShoe.POST req reply = ⟨500, RespBody.errRaw AnalyzeShoe.parseFailMsg t⟩ := by
  simp [AnalyzeShoe.POST, hfile, hsize, htext, hne, hnorm]

theorem entryToNum_none_of_NaN {e : FormEntry} (h : entryNaN e = true) :
    entryToNum (some e) = none := by
  cases e with
  | str s =>
    by_cases hs : s = ""
    · simp [entryToNum, hs]
    · simp [entryNaN] at h
      simp only [entryToNum, hs, if_neg hs]
      exact h
  | file f => rfl

theorem ctx_400_of_missing {req : CtxRequest} {f : FilePart} {reply : GeminiResponse}
    (hfile : req.file = some (FormEntry.file f)) (hsize : ¬f.size = 0)
    (h : entryToNum req.humidity = none ∨ entryToNum req.temperature = none) :
    AnalyzeCtx.POST req reply = ⟨400, RespBody.err AnalyzeCtx.ctxNumMsg⟩ := by
  rcases h with h | h <;> simp [AnalyzeCtx.POST, hfile, hsize, h]

/- ===== 11. Claim theorems ===== -/

/-- Claim C1, counterexample: a provider text recommending 120 minutes
passes normalization unchanged, so the POST handler returns 200 with
recommended_time_minutes 120, which exceeds the 60-minute policy ceiling.
The claim as stated is therefore false. -/
theorem c1_counterexample :
    AnalyzeShoe.POST reqStd (replyOfText tOver)
      = ⟨200, RespBody.ok "shoe.jpg" 4 (Json.str "Boot") 120 "gemini-2.5-flash"⟩ ∧
    ¬((120 : ℚ) ≤ 60) :=
  ⟨by rfl, by decide⟩

/-- Claim C1, amended: for every provider reply text that passes
normalization, the 200 response's recommended_time_minutes equals the
parsed value exactly; the 60-minute ceiling is requested in the prompt but
is not enforced by the handler, so values above 60 are returned as-is. -/
theorem c1_amended (req : AnalyzeRequest) (f : FilePart) (reply : GeminiResponse)
    (t : String) (st : Json) (m : ℚ)
    (hfile : req.file = some (FormEntry.file f)) (hsize : ¬f.size = 0)
    (htext : genText reply = some t) (hne : ¬t = "")
    (hnorm : normalizeText t = some (st, m)) :
    AnalyzeShoe.POST req reply
      = ⟨200, RespBody.ok f.name f.size st m "gemini-2.5-flash"⟩ := by
  simp [AnalyzeShoe.POST, hfile, hsize, htext, hne, hnorm]

/-- Witness for the amended claim C1 at a concrete input: 75 minutes is
echoed back although it exceeds 60. -/
theorem c1_amended_witness :
    AnalyzeShoe.POST reqStd (replyOfText tSeventyFive)
      = ⟨200, RespBody.ok "shoe.jpg" 4 (Json.str "Sneaker") 75 "gemini-2.5-flash"⟩ :=
  c1_amended reqStd ⟨"shoe.jpg", 4⟩ (replyOfText tSeventyFive) tSeventyFive
    (Json.str "Sneaker") 75 rfl (by decide) rfl (by decide) (by rfl)

/-- Claim C2: for every provider text t that parses as JSON into a value
passing the handler's two-field check, normalizing the fence-wrapped text
(opening fence, whitespace, t, whitespace, closing fence) yields exactly
the same result as normalizing t itself. -/
theorem c2_fence_roundtrip (t ws1 ws2 : String) (v : Json)
    (hws1 : ∀ c ∈ ws1.data, isStrWs c = true) (hws2 : ∀ c ∈ ws2.data, isStrWs c = true)
    (hp : jsonParse t = some v) (hv : validStructure v = true) :
    normalizeText (fenceWrap ws1 t ws2) = normalizeText t := by
  obtain ⟨fs, rfl⟩ := validStructure_obj hv
  obtain ⟨jws, mid, rest, hdec, hjws, hrest⟩ := jsonParse_obj_shape t fs hp
  have hjws2 : ∀ c ∈ jws, isStrWs c = true := fun c hc => isStrWs_of_isJsonWs (hjws c hc)
  have hrest2 : ∀ c ∈ rest, isStrWs c = true := fun c hc => isStrWs_of_isJsonWs (hrest c hc)
  apply normalizeText_congr
  have key : stripCloseFence (stripOpenFence (trimChars (fenceWrap ws1 t ws2).data))
      = stripCloseFence (stripOpenFence (trimChars t.data)) := by
    rw [fenceWrap_data, hdec]
    have hassoc :
        fenceJson ++ (ws1.data ++ ((jws ++ '{' :: (mid ++ '}' :: rest)) ++ (ws2.data ++ fenceClose)))
        = fenceJson ++ (ws1.data ++ (jws ++ '{' :: (mid ++ '}' :: (rest ++ (ws2.data ++ fenceClose))))) := by
      simp [List.append_assoc]
    rw [hassoc, strip_wrapped _ _ _ _ _ hws1 hws2 hjws2 hrest2,
       trim_core _ _ _ hjws2 hrest2, strip_core]
  unfold cleanedText
  exact congrArg String.mk key

/-- Witness for claim C2 at a concrete input: wrapping a valid reply in a
fence gives the same successful normalization as the bare reply. -/
theorem c2_fence_roundtrip_witness :
    normalizeText (fenceWrap "\n" tValid " ") = normalizeText tValid ∧
    normalizeText tValid = some (Json.str "Sneaker", 40) :=
  ⟨c2_fence_roundtrip tValid "\n" " " vValid (by decide) (by decide) (by rfl) (by rfl),
   by rfl⟩

/-- Claim C3, counterexample: the provider text with a boolean shoe_type is
present and is not parseable as an object with a string shoe_type, yet the
handler returns 200 (with the boolean echoed as the label) rather than 500
with the original text: the truthiness check accepts any truthy value. -/
theorem c3_counterexample :
    specRequiredShape tBoolLabel = false ∧
    genText (replyOfText tBoolLabel) = some tBoolLabel ∧
    AnalyzeShoe.POST reqStd (replyOfText tBoolLabel)
      = ⟨200, RespBody.ok "shoe.jpg" 4 (Json.bool true) 30 "gemini-2.5-flash"⟩ :=
  ⟨by rfl, by rfl, by rfl⟩

/-- Claim C3, amended: for every provider reply whose first candidate's
text is present and nonempty and fails the handler's own normalization
(parse error, falsy shoe_type, or non-number recommended_time_minutes),
the handler returns 500 with the original provider text character-for-
character unchanged, not the trimmed or fence-stripped version. -/
theorem c3_amended (req : AnalyzeRequest) (f : FilePart) (reply : GeminiResponse)
    (t : String)
    (hfile : req.file = some (FormEntry.file f)) (hsize : ¬f.size = 0)
    (htext : genText reply = some t) (hne : ¬t = "")
    (hnorm : normalizeText t = none) :
    AnalyzeShoe.POST req reply = ⟨500, RespBody.errRaw AnalyzeShoe.parseFailMsg t⟩ :=
  POST_reduce_parse_fail hfile hsize htext hne hnorm

/-- Witness for the amended claim C3: a fenced non-JSON text is echoed
back in its original fenced form, although the cleaned text differs. -/
theorem c3_amended_witness :
    AnalyzeShoe.POST reqStd (replyOfText tFenced)
      = ⟨500, RespBody.errRaw AnalyzeShoe.parseFailMsg tFenced⟩ ∧
    cleanedText tFenced ≠ tFenced :=
  ⟨c3_amended reqStd ⟨"shoe.jpg", 4⟩ (replyOfText tFenced) tFenced
    rfl (by decide) rfl (by decide) (by rfl), by decide⟩

/-- Claim C4, code bug evaluation: a provider text whose shoe_type is the
number 5 does not have the shape the specification requires, yet the
handler returns 200 and echoes the numeric shoe_type; the check
`!analysisObject.shoe_type` tests truthiness, not `typeof ... === 'string'`,
so a truthy non-string slips through, contradicting the code's own thrown
message ("... or has incorrect type") and its declared type. -/
theorem c4_bug_eval :
    specRequiredShape tNumLabel = false ∧
    AnalyzeShoe.POST reqStd (replyOfText tNumLabel)
      = ⟨200, RespBody.ok "shoe.jpg" 4 (Json.num 5) 40 "gemini-2.5-flash"⟩ :=
  ⟨by rfl, by rfl⟩

/-- Claim C5: for every provider reply whose text parses as JSON with
recommended_time_minutes a string, the handler returns 500 with the raw
text in the body; in particular it never returns a 200 with a coerced
numeric value. -/
theorem c5_string_minutes (req : AnalyzeRequest) (f : FilePart) (reply : GeminiResponse)
    (t : String) (v : Json) (s : String)
    (hfile : req.file = some (FormEntry.file f)) (hsize : ¬f.size = 0)
    (htext : genText reply = some t)
    (hp : jsonParse (cleanedText t) = some v)
    (hm : getProp v "recommended_time_minutes" = some (Json.str s)) :
    AnalyzeShoe.POST req reply = ⟨500, RespBody.errRaw AnalyzeShoe.parseFailMsg t⟩ :=
  POST_reduce_parse_fail hfile hsize htext (text_ne_empty hp)
    (normalizeText_none_of_minutes_str hp hm)

/-- Witness for claim C5 at the concrete string-minutes input. -/
theorem c5_witness :
    AnalyzeShoe.POST reqStd (replyOfText tStrMinutes)
      = ⟨500, RespBody.errRaw AnalyzeShoe.parseFailMsg tStrMinutes⟩ :=
  c5_string_minutes reqStd ⟨"shoe.jpg", 4⟩ (replyOfText tStrMinutes) tStrMinutes
    (Json.obj [("shoe_type", Json.str "Sneaker"), ("recommended_time_minutes", Json.str "40")])
    "40" rfl (by decide) rfl (by rfl) (by rfl)

/-- Claim C6, counterexample: a request with a valid non-empty image and
neither temperature nor humidity is rejected by the context-aware handler
with 400 and the message naming both fields, so the fields are not
optional as the claim states. -/
theorem c6_counterexample :
    AnalyzeCtx.POST ⟨some (FormEntry.file ⟨"shoe.jpg", 4⟩), none, none⟩ replyEmpty
      = ⟨400, RespBody.err AnalyzeCtx.ctxNumMsg⟩ := by rfl

/-- Claim C6, amended: in the context-aware variant temperature and
humidity are required; a request with a valid non-empty image that
supplies neither is rejected with 400 and the message naming both
fields. -/
theorem c6_amended (req : CtxRequest) (f : FilePart) (reply : GeminiResponse)
    (hfile : req.file = some (FormEntry.file f)) (hsize : ¬f.size = 0)
    (_htemp : req.temperature = none) (hhum : req.humidity = none) :
    AnalyzeCtx.POST req reply = ⟨400, RespBody.err AnalyzeCtx.ctxNumMsg⟩ :=
  ctx_400_of_missing hfile hsize (Or.inl (by rw [hhum]; rfl))

/-- Witness for the amended claim C6 at a concrete request. -/
theorem c6_amended_witness :
    AnalyzeCtx.POST ⟨some (FormEntry.file ⟨"shoe.jpg", 4⟩), none, none⟩ (replyOfText tOver)
      = ⟨400, RespBody.err AnalyzeCtx.ctxNumMsg⟩ :=
  c6_amended ⟨some (FormEntry.file ⟨"shoe.jpg", 4⟩), none, none⟩ ⟨"shoe.jpg", 4⟩
    (replyOfText tOver) rfl (by decide) rfl rfl

/-- Claim C7: in the context-aware variant, for every request with a valid
image where exactly one of temperature/humidity is present, or where a
supplied value fails numeric parsing, the handler returns 400 with the
message naming both fields as required; the reply is irrelevant because
validation precedes the provider call. -/
theorem c7_context_validation (req : CtxRequest) (f : FilePart) (reply : GeminiResponse)
    (hfile : req.file = some (FormEntry.file f)) (hsize : ¬f.size = 0)
    (h : (req.temperature.isSome ≠ req.humidity.isSome) ∨
         (∃ e, req.temperature = some e ∧ entryNaN e = true) ∨
         (∃ e, req.humidity = some e ∧ entryNaN e = true)) :
    AnalyzeCtx.POST req reply = ⟨400, RespBody.err AnalyzeCtx.ctxNumMsg⟩ := by
  apply ctx_400_of_missing hfile hsize
  rcases h with h | ⟨e, he, hn⟩ | ⟨e, he, hn⟩
  · rcases ht : req.temperature with _ | et <;> rcases hh : req.humidity with _ | eh
    · rw [ht, hh] at h; simp at h
    · exact Or.inr rfl
    · exact Or.inl rfl
    · rw [ht, hh] at h; simp at h
  · exact Or.inr (by rw [he]; exact entryToNum_none_of_NaN hn)
  · exact Or.inl (by rw [he]; exact entryToNum_none_of_NaN hn)

/-- Witness for claim C7: temperature "abc" with humidity "50" yields the
400 with the both-fields message. -/
theorem c7_witness :
    AnalyzeCtx.POST
      ⟨some (FormEntry.file ⟨"shoe.jpg", 4⟩), some (FormEntry.str "abc"), some (FormEntry.str "50")⟩
      replyEmpty = ⟨400, RespBody.err AnalyzeCtx.ctxNumMsg⟩ :=
  c7_context_validation
    ⟨some (FormEntry.file ⟨"shoe.jpg", 4⟩), some (FormEntry.str "abc"), some (FormEntry.str "50")⟩
    ⟨"shoe.jpg", 4⟩ replyEmpty rfl (by decide)
    (Or.inr (Or.inl ⟨FormEntry.str "abc", rfl, by rfl⟩))

/-- Claim C8: for every provider reply with no candidate text and a
(nonempty) block reason, the handler returns 403 with the error message
carrying the block reason verbatim as its suffix and the feedback's safety
ratings echoed. -/
theorem c8_blocked (req : AnalyzeRequest) (f : FilePart) (reply : GeminiResponse)
    (fb : PromptFeedback) (r : String)
    (hfile : req.file = some (FormEntry.file f)) (hsize : ¬f.size = 0)
    (htext : genText reply = none)
    (hfb : reply.promptFeedback = some fb) (hbr : fb.blockReason = some r) (hr : ¬r = "") :
    AnalyzeShoe.POST req reply
      = ⟨403, RespBody.errSafety (AnalyzeShoe.blockMsgPre ++ r) fb.safetyRatings⟩ := by
  simp [AnalyzeShoe.POST, AnalyzeShoe.afterText, hfile, hsize, htext, hfb, hbr, hr]

/-- Witness for claim C8 at a concrete blocked reply. -/
theorem c8_witness :
    AnalyzeShoe.POST reqStd replyBlocked
      = ⟨403, RespBody.errSafety (AnalyzeShoe.blockMsgPre ++ "SAFETY")
          (some [⟨"HARM_CATEGORY_DANGEROUS_CONTENT", "HIGH"⟩])⟩ :=
  c8_blocked reqStd ⟨"shoe.jpg", 4⟩ replyBlocked
    ⟨some "SAFETY", some [⟨"HARM_CATEGORY_DANGEROUS_CONTENT", "HIGH"⟩]⟩ "SAFETY"
    rfl (by decide) rfl rfl rfl (by decide)

/-- Claim C9: for every request whose file field is absent, a plain
string, or an empty file, the handler returns 400 with an error message,
and the result does not depend on the provider reply (the provider is
never consulted). -/
theorem c9_invalid_upload (req : AnalyzeRequest) (reply reply2 : GeminiResponse)
    (h : req.file = none ∨ (∃ s, req.file = some (FormEntry.str s)) ∨
         (∃ f, req.file = some (FormEntry.file f) ∧ f.size = 0)) :
    AnalyzeShoe.POST req reply = AnalyzeShoe.POST req reply2 ∧
    ∃ m, AnalyzeShoe.POST req reply = ⟨400, RespBody.err m⟩ := by
  rcases h with h | ⟨s, h⟩ | ⟨f, h, hsz⟩
  · exact ⟨by simp [AnalyzeShoe.POST, h], ⟨AnalyzeShoe.fileMsg, by simp [AnalyzeShoe.POST, h]⟩⟩
  · exact ⟨by simp [AnalyzeShoe.POST, h], ⟨AnalyzeShoe.fileMsg, by simp [AnalyzeShoe.POST, h]⟩⟩
  · exact ⟨by simp [AnalyzeShoe.POST, h, hsz], ⟨AnalyzeShoe.emptyMsg, by simp [AnalyzeShoe.POST, h, hsz]⟩⟩

/-- Witness for claim C9: a missing file gives the same 400 under two
different provider replies. -/
theorem c9_witness :
    AnalyzeShoe.POST ⟨none⟩ (replyOfText tOver) = AnalyzeShoe.POST ⟨none⟩ replyEmpty ∧
    ∃ m, AnalyzeShoe.POST ⟨none⟩ (replyOfText tOver) = ⟨400, RespBody.err m⟩ :=
  c9_invalid_upload ⟨none⟩ (replyOfText tOver) replyEmpty (Or.inl rfl)

/-- Claim C10: for every provider reply whose text parses as JSON with an
empty-string shoe_type (correctly typed but falsy), the handler treats it
as a normalization failure and returns 500 with the raw text, never a 200
with an empty label. -/
theorem c10_empty_label (req : AnalyzeRequest) (f : FilePart) (reply : GeminiResponse)
    (t : String) (v : Json)
    (hfile : req.file = some (FormEntry.file f)) (hsize : ¬f.size = 0)
    (htext : genText reply = some t)
    (hp : jsonParse (cleanedText t) = some v)
    (hs : getProp v "shoe_type" = some (Json.str "")) :
    AnalyzeShoe.POST req reply = ⟨500, RespBody.errRaw AnalyzeShoe.parseFailMsg t⟩ :=
  POST_reduce_parse_fail hfile hsize htext (text_ne_empty hp)
    (normalizeText_none_of_shoe_empty hp hs)

/-- Witness for claim C10 at the concrete empty-label input. -/
theorem c10_witness :
    AnalyzeShoe.POST reqStd (replyOfText tEmptyLabel)
      = ⟨500, RespBody.errRaw AnalyzeShoe.parseFailMsg tEmptyLabel⟩ :=
  c10_empty_label reqStd ⟨"shoe.jpg", 4⟩ (replyOfText tEmptyLabel) tEmptyLabel
    (Json.obj [("shoe_type", Json.str ""), ("recommended_time_minutes", Json.num 40)])
    rfl (by decide) rfl (by rfl) (by rfl)
